import Mathlib

/-!
Verification development for inertpad (src/main.rs).

The program adds synthetic inertia to a touchpad: a capture loop
(`Touchpad::run_capture`) reconstructs finger velocity from raw evdev events
and sends momentum messages over a channel; an emulation loop
(`VirtualMouse::run_emulation`) turns a momentum message into a decaying
sequence of pointer-motion or scroll events.

Modelling conventions:
* `f64` arithmetic is embedded as exact rational arithmetic (`ℚ`); the
  program's decay and velocity formulas only use `*`, `-`, `/` on values the
  spec reasons about exactly.
* the Rust cast `f64 as i32` truncates toward zero, embedded as `truncQ`.
* `f64` division by zero yields a non-finite value (±inf or NaN); where that
  matters (the tracker's velocity update) the result type is `Option ℚ` with
  `none` standing for any non-finite value.
* timestamps are rationals measured in seconds; `MT_TIMEOUT` (500 ms) is 1/2.
* the Rust cast `i32 as usize` on a 64-bit target is `i32_as_usize`.
-/

/-- Truncation toward zero of a rational, the semantics of Rust `f64 as i32`
(for in-range values). -/
def truncQ (q : ℚ) : ℤ := if 0 ≤ q then ⌊q⌋ else ⌈q⌉

/-- Rust `f64::clamp(lo, hi)` for `lo ≤ hi`. -/
def clampQ (q lo hi : ℚ) : ℚ := min (max q lo) hi

/-- The `MomentumMessage` enum. `PointerMomentum`/`ScrollMomentum` are the
Start messages carrying a velocity; the spec calls them `PointerStart` and
`ScrollStart`. -/
inductive MomentumMessage where
  | PointerMomentum : ℚ × ℚ → MomentumMessage
  | PointerStop : MomentumMessage
  | ScrollMomentum : ℚ × ℚ → MomentumMessage
  | ScrollStop : MomentumMessage
deriving DecidableEq, Repr

/-- One event emitted to the virtual mouse: `set_position`,
`scroll_vertical` or `scroll_horizontal`. -/
inductive Emission where
  | setPosition : ℤ → ℤ → Emission
  | scrollVertical : ℤ → Emission
  | scrollHorizontal : ℤ → Emission
deriving DecidableEq, Repr

/-- The mutable state of `run_emulation`: the two per-class `active` flags
(`pointer_moving`, `scrolling`) and the two velocities (`pvel`, `svel`). -/
structure EmuState where
  pointer_moving : Bool
  scrolling : Bool
  pvel : ℚ × ℚ
  svel : ℚ × ℚ
deriving DecidableEq, Repr

/-- The configuration parameters `run_emulation` receives. -/
structure EmuConfig where
  pointer_drag : ℚ
  pointer_scaler : ℚ
  scroll_drag : ℚ
  scroll_scaler : ℚ
  scroll_invert : Bool
deriving DecidableEq, Repr

/-- Per the source: `pointer_deceleration = 1.0 - pointer_drag.clamp(0.0, 1.0)`. -/
def EmuConfig.pointer_deceleration (c : EmuConfig) : ℚ :=
  1 - clampQ c.pointer_drag 0 1

/-- Per the source: `scroll_deceleration = 1.0 - scroll_drag.clamp(0.0, 1.0)`. -/
def EmuConfig.scroll_deceleration (c : EmuConfig) : ℚ :=
  1 - clampQ c.scroll_drag 0 1

/-- The default CLI configuration of the program (`Args` defaults):
pointer_drag 0.15, pointer_factor 0.0075, scroll_drag 0.1,
scroll_factor 0.05, scroll_invert false. -/
def defaultEmuConfig : EmuConfig :=
  { pointer_drag := 3/20, pointer_scaler := 3/400,
    scroll_drag := 1/10, scroll_scaler := 1/20, scroll_invert := false }

/-- The `if pointer_moving` block of the timeout arm of `run_emulation`:
compute `x,y = (pvel * scaler) as i32`; if both are zero, clear the class and
zero the velocity without emitting; otherwise decay the velocity and emit
`set_position(x, y)`. Returns (new flag, new velocity, emissions). -/
def pointerTick (scaler decel : ℚ) (pm : Bool) (pvel : ℚ × ℚ) :
    Bool × (ℚ × ℚ) × List Emission :=
  if pm then
    let x := truncQ (pvel.1 * scaler)
    let y := truncQ (pvel.2 * scaler)
    if x = 0 ∧ y = 0 then (false, (0, 0), [])
    else (true, (pvel.1 * decel, pvel.2 * decel), [Emission.setPosition x y])
  else (pm, pvel, [])

/-- The `if scrolling` block of the timeout arm of `run_emulation`: compute
`x,y = (svel * scaler) as i32`; if both are zero, clear the class and zero the
velocity without emitting; otherwise decay the velocity and emit one scroll
event: vertical `(if scroll_invert then -y else y)` when `|x| ≤ |y|`, else
horizontal `-x`. -/
def scrollTick (scaler decel : ℚ) (invert : Bool) (sm : Bool) (svel : ℚ × ℚ) :
    Bool × (ℚ × ℚ) × List Emission :=
  if sm then
    let x := truncQ (svel.1 * scaler)
    let y := truncQ (svel.2 * scaler)
    if x = 0 ∧ y = 0 then (false, (0, 0), [])
    else
      (true, (svel.1 * decel, svel.2 * decel),
        if |x| ≤ |y| then [Emission.scrollVertical (if invert then -y else y)]
        else [Emission.scrollHorizontal (-x)])
  else (sm, svel, [])

/-- One input processed by an iteration of the `run_emulation` loop: a channel
message, or the expiry of the tick period. -/
inductive EmuInput where
  | msg : MomentumMessage → EmuInput
  | tick : EmuInput
deriving DecidableEq, Repr

/-- One iteration of the `run_emulation` loop. When a class is active the loop
waits with `recv_timeout(period)`: a Stop message clears its class, any other
message is logged as unexpected and ignored, and a timeout runs both tick
blocks. When both classes are idle the loop blocks in `recv()`: a Momentum
message activates its class storing the velocity, everything else is ignored;
no tick can elapse there (the wait has no timeout), so `tick` is a no-op. -/
def emuStep (c : EmuConfig) (st : EmuState) (inp : EmuInput) :
    EmuState × List Emission :=
  if st.pointer_moving || st.scrolling then
    match inp with
    | .msg .PointerStop => ({ st with pointer_moving := false, pvel := (0, 0) }, [])
    | .msg .ScrollStop => ({ st with scrolling := false, svel := (0, 0) }, [])
    | .msg _ => (st, [])
    | .tick =>
      let p := pointerTick c.pointer_scaler c.pointer_deceleration
        st.pointer_moving st.pvel
      let s := scrollTick c.scroll_scaler c.scroll_deceleration c.scroll_invert
        st.scrolling st.svel
      ({ pointer_moving := p.1, scrolling := s.1, pvel := p.2.1, svel := s.2.1 },
        p.2.2 ++ s.2.2)
  else
    match inp with
    | .msg (.PointerMomentum v) => ({ st with pointer_moving := true, pvel := v }, [])
    | .msg (.ScrollMomentum v) => ({ st with scrolling := true, svel := v }, [])
    | .msg _ => (st, [])
    | .tick => (st, [])

/-- How the loop waits at the top of an iteration. -/
inductive WaitMode where
  | block : WaitMode
  | timeout : ℚ → WaitMode
deriving DecidableEq, Repr

/-- The wait performed by `run_emulation`: `recv_timeout(period)` with
`period = refresh_rate.recip()` when any class is active, blocking `recv()`
when both are idle. -/
def emuWaitMode (refresh_rate : ℚ) (st : EmuState) : WaitMode :=
  if st.pointer_moving || st.scrolling then WaitMode.timeout refresh_rate⁻¹
  else WaitMode.block

/-- The initial state of `run_emulation`: both classes idle, both velocities
zero. -/
def emuInit : EmuState :=
  { pointer_moving := false, scrolling := false, pvel := (0, 0), svel := (0, 0) }

/-- The spec's EmulationState invariant: velocity is (0,0) whenever the class
is inactive. -/
def emuInv (st : EmuState) : Prop :=
  (st.pointer_moving = false → st.pvel = (0, 0)) ∧
  (st.scrolling = false → st.svel = (0, 0))

/-- Iterate the pointer tick block `n` times from a freshly started pointer
class with velocity `v0`, collecting emissions. -/
def pointerRun (scaler decel : ℚ) (v0 : ℚ × ℚ) : ℕ → (Bool × (ℚ × ℚ)) × List Emission
  | 0 => ((true, v0), [])
  | n + 1 =>
    let r := pointerRun scaler decel v0 n
    let t := pointerTick scaler decel r.1.1 r.1.2
    ((t.1, t.2.1), r.2 ++ t.2.2)

/-- Iterate the scroll tick block `n` times from a freshly started scroll
class with velocity `v0`, collecting emissions. -/
def scrollRun (scaler decel : ℚ) (invert : Bool) (v0 : ℚ × ℚ) :
    ℕ → (Bool × (ℚ × ℚ)) × List Emission
  | 0 => ((true, v0), [])
  | n + 1 =>
    let r := scrollRun scaler decel invert v0 n
    let t := scrollTick scaler decel invert r.1.1 r.1.2
    ((t.1, t.2.1), r.2 ++ t.2.2)

/-- The per-axis output delta computed on the tick following `k` decays of the
initial velocity: `trunc(v0 · decel^k · scale)` componentwise. -/
def tickDelta (scaler decel : ℚ) (v0 : ℚ × ℚ) (k : ℕ) : ℤ × ℤ :=
  (truncQ (v0.1 * decel ^ k * scaler), truncQ (v0.2 * decel ^ k * scaler))

/-- The multitouch cooldown guard window `MT_TIMEOUT = 500 ms`, in seconds. -/
def MT_TIMEOUT : ℚ := 1/2

/-- The condition `(vel.0² + vel.1²).sqrt() ≥ thr` of the capture loop,
expressed over `ℚ`: since the square root is nonnegative, it holds exactly
when `thr ≤ 0`, or when `thr² ≤ vel.0² + vel.1²`. -/
def speedGeQ (vel : ℚ × ℚ) (thr : ℚ) : Prop :=
  thr ≤ 0 ∨ thr ^ 2 ≤ vel.1 ^ 2 + vel.2 ^ 2

instance (vel : ℚ × ℚ) (thr : ℚ) : Decidable (speedGeQ vel thr) :=
  inferInstanceAs (Decidable (_ ∨ _))

/-- The `BTN_TOUCH` release arm of `run_capture` (`event.value() != 1`):
with the recorded `touch_count`, the stored velocity and the three
timestamps, it sends `ScrollMomentum(vel)` when the scroll guard passes, else
`PointerMomentum(vel)` when the pointer guard passes, else nothing; then it
resets `touch_count` to 0. Returns (message sent, new touch_count). -/
def touchUp (pointer_enabled scroll_enabled : Bool)
    (pointer_threshold scroll_threshold : ℚ)
    (touch_count : ℕ) (vel : ℚ × ℚ)
    (timestamp dt_timestamp mt_timestamp : ℚ) :
    Option MomentumMessage × ℕ :=
  if touch_count = 2 ∧ speedGeQ vel scroll_threshold ∧
      mt_timestamp + MT_TIMEOUT < timestamp ∧ scroll_enabled = true then
    (some (MomentumMessage.ScrollMomentum vel), 0)
  else if touch_count = 1 ∧ speedGeQ vel pointer_threshold ∧
      dt_timestamp + MT_TIMEOUT < timestamp ∧
      mt_timestamp + MT_TIMEOUT < timestamp ∧ pointer_enabled = true then
    (some (MomentumMessage.PointerMomentum vel), 0)
  else (none, 0)

/-- The part of the tracker state touched by the `BTN_TOUCH` press arm. -/
structure CaptureState where
  touch_count : ℕ
  vel : ℚ × ℚ
  pos : ℤ × ℤ
  prev_pos : ℤ × ℤ
deriving DecidableEq, Repr

/-- The `BTN_TOUCH` press arm of `run_capture` (`event.value() == 1`): zero
the velocity, set `prev_pos = pos`, send `PointerStop` when the pointer class
is enabled and `ScrollStop` when the scroll class is enabled. -/
def touchDown (pointer_enabled scroll_enabled : Bool) (st : CaptureState) :
    CaptureState × List MomentumMessage :=
  ({ st with vel := (0, 0), prev_pos := st.pos },
    (if pointer_enabled then [MomentumMessage.PointerStop] else []) ++
    (if scroll_enabled then [MomentumMessage.ScrollStop] else []))

/-- Division as performed on `f64`: a zero divisor yields a non-finite value
(±inf, or NaN when the dividend is also zero), modelled as `none`. -/
def fdiv (a b : ℚ) : Option ℚ := if b = 0 then none else some (a / b)

/-- The end-of-batch velocity update of `run_capture`: when `touch_count != 0`
and the position changed, set `vel = (Δx/Δt, Δy/Δt)` with
`Δt = timestamp - prev_timestamp` (the code performs this division with no
check that `Δt` is nonzero) and advance `prev_pos`, `prev_timestamp`;
otherwise leave all three unchanged. Timestamps are assumed monotone
(`duration_since` panics otherwise), so `Δt ≥ 0`. Returns
(vel, prev_pos, prev_timestamp). -/
def velocityUpdate (touch_count : ℕ) (pos prev_pos : ℤ × ℤ)
    (timestamp prev_timestamp : ℚ) (vel : Option ℚ × Option ℚ) :
    (Option ℚ × Option ℚ) × (ℤ × ℤ) × ℚ :=
  if touch_count ≠ 0 ∧ pos ≠ prev_pos then
    let dt := timestamp - prev_timestamp
    ((fdiv ((pos.1 - prev_pos.1 : ℤ) : ℚ) dt,
      fdiv ((pos.2 - prev_pos.2 : ℤ) : ℚ) dt), pos, timestamp)
  else (vel, prev_pos, prev_timestamp)

/-- The Rust cast `i32 as usize` on a 64-bit target: sign-extend and
reinterpret, i.e. reduce modulo 2^64. -/
def i32_as_usize (v : ℤ) : ℕ := (v % 2 ^ 64).toNat

/-- The `ABS_MT_POSITION_X` arm of `run_capture`: store the value in
`mt_pos[mt_slot].0` only when `mt_slot < mt_pos.len() = 2`. -/
def mtPositionUpdateX (mt_slot : ℕ) (mt_pos : Fin 2 → ℤ × ℤ) (value : ℤ) :
    Fin 2 → ℤ × ℤ :=
  if h : mt_slot < 2 then
    Function.update mt_pos ⟨mt_slot, h⟩ (value, (mt_pos ⟨mt_slot, h⟩).2)
  else mt_pos

/-- The `ABS_MT_POSITION_Y` arm of `run_capture`: store the value in
`mt_pos[mt_slot].1` only when `mt_slot < mt_pos.len() = 2`. -/
def mtPositionUpdateY (mt_slot : ℕ) (mt_pos : Fin 2 → ℤ × ℤ) (value : ℤ) :
    Fin 2 → ℤ × ℤ :=
  if h : mt_slot < 2 then
    Function.update mt_pos ⟨mt_slot, h⟩ ((mt_pos ⟨mt_slot, h⟩).1, value)
  else mt_pos

/-! Helper lemmas about the tick blocks. -/

lemma pointerTick_false (scaler decel : ℚ) (v : ℚ × ℚ) :
    pointerTick scaler decel false v = (false, v, []) := by
  simp [pointerTick]

lemma scrollTick_false (scaler decel : ℚ) (invert : Bool) (v : ℚ × ℚ) :
    scrollTick scaler decel invert false v = (false, v, []) := by
  simp [scrollTick]

lemma pointerTick_emit (scaler decel : ℚ) (v : ℚ × ℚ)
    (h : ¬(truncQ (v.1 * scaler) = 0 ∧ truncQ (v.2 * scaler) = 0)) :
    pointerTick scaler decel true v =
      (true, (v.1 * decel, v.2 * decel),
        [Emission.setPosition (truncQ (v.1 * scaler)) (truncQ (v.2 * scaler))]) := by
  simp only [pointerTick, if_true]
  rw [if_neg h]

lemma pointerTick_stop (scaler decel : ℚ) (v : ℚ × ℚ)
    (hx : truncQ (v.1 * scaler) = 0) (hy : truncQ (v.2 * scaler) = 0) :
    pointerTick scaler decel true v = (false, (0, 0), []) := by
  simp [pointerTick, hx, hy]

lemma scrollTick_decay (scaler decel : ℚ) (invert : Bool) (v : ℚ × ℚ)
    (h : ¬(truncQ (v.1 * scaler) = 0 ∧ truncQ (v.2 * scaler) = 0)) :
    (scrollTick scaler decel invert true v).1 = true ∧
    (scrollTick scaler decel invert true v).2.1 = (v.1 * decel, v.2 * decel) := by
  simp only [scrollTick, if_true]
  rw [if_neg h]
  exact ⟨rfl, rfl⟩

lemma scrollTick_stop (scaler decel : ℚ) (invert : Bool) (v : ℚ × ℚ)
    (hx : truncQ (v.1 * scaler) = 0) (hy : truncQ (v.2 * scaler) = 0) :
    scrollTick scaler decel invert true v = (false, (0, 0), []) := by
  simp [scrollTick, hx, hy]

/-- While every computed delta is nonzero, the pointer class stays active, the
internal velocity after `n` ticks is `v0 · decel^n`, and the `k`-th emission
(0-indexed) is the truncation of `v0 · decel^k · scaler`. -/
lemma pointerRun_emitting (scaler decel : ℚ) (v0 : ℚ × ℚ) (n : ℕ)
    (h : ∀ k < n, tickDelta scaler decel v0 k ≠ (0, 0)) :
    pointerRun scaler decel v0 n =
      ((true, (v0.1 * decel ^ n, v0.2 * decel ^ n)),
        (List.range n).map fun k =>
          Emission.setPosition (tickDelta scaler decel v0 k).1
            (tickDelta scaler decel v0 k).2) := by
  induction n with
  | zero => simp [pointerRun]
  | succ n ih =>
    have hn : ∀ k < n, tickDelta scaler decel v0 k ≠ (0, 0) :=
      fun k hk => h k (Nat.lt_succ_of_lt hk)
    have hd : ¬(truncQ (v0.1 * decel ^ n * scaler) = 0 ∧
        truncQ (v0.2 * decel ^ n * scaler) = 0) := by
      intro hc
      exact h n (Nat.lt_succ_self n) (by simp [tickDelta, Prod.ext_iff, hc.1, hc.2])
    simp only [pointerRun, ih hn]
    rw [pointerTick_emit _ _ _ hd]
    simp [List.range_succ, tickDelta, pow_succ, mul_assoc]

lemma pointerRun_succ (scaler decel : ℚ) (v0 : ℚ × ℚ) (n : ℕ) :
    pointerRun scaler decel v0 (n + 1) =
      (((pointerTick scaler decel (pointerRun scaler decel v0 n).1.1
           (pointerRun scaler decel v0 n).1.2).1,
        (pointerTick scaler decel (pointerRun scaler decel v0 n).1.1
           (pointerRun scaler decel v0 n).1.2).2.1),
       (pointerRun scaler decel v0 n).2 ++
        (pointerTick scaler decel (pointerRun scaler decel v0 n).1.1
           (pointerRun scaler decel v0 n).1.2).2.2) := rfl

lemma scrollRun_succ (scaler decel : ℚ) (invert : Bool) (v0 : ℚ × ℚ) (n : ℕ) :
    scrollRun scaler decel invert v0 (n + 1) =
      (((scrollTick scaler decel invert (scrollRun scaler decel invert v0 n).1.1
           (scrollRun scaler decel invert v0 n).1.2).1,
        (scrollTick scaler decel invert (scrollRun scaler decel invert v0 n).1.1
           (scrollRun scaler decel invert v0 n).1.2).2.1),
       (scrollRun scaler decel invert v0 n).2 ++
        (scrollTick scaler decel invert (scrollRun scaler decel invert v0 n).1.1
           (scrollRun scaler decel invert v0 n).1.2).2.2) := rfl

/-- At the first tick whose delta truncates to zero on both axes, the pointer
class goes idle with velocity reset and nothing more is emitted. -/
lemma pointerRun_stop (scaler decel : ℚ) (v0 : ℚ × ℚ) (n : ℕ)
    (h : ∀ k < n, tickDelta scaler decel v0 k ≠ (0, 0))
    (h0 : tickDelta scaler decel v0 n = (0, 0)) :
    pointerRun scaler decel v0 (n + 1) =
      ((false, (0, 0)), (pointerRun scaler decel v0 n).2) := by
  have h0' : truncQ (v0.1 * decel ^ n * scaler) = 0 ∧
      truncQ (v0.2 * decel ^ n * scaler) = 0 := by
    simpa [tickDelta, Prod.ext_iff] using h0
  rw [pointerRun_succ, pointerRun_emitting scaler decel v0 n h]
  dsimp only
  rw [pointerTick_stop scaler decel (v0.1 * decel ^ n, v0.2 * decel ^ n) h0'.1 h0'.2]
  simp

/-- Scroll analogue of `pointerRun_emitting` for the class state. -/
lemma scrollRun_emitting (scaler decel : ℚ) (invert : Bool) (v0 : ℚ × ℚ) (n : ℕ)
    (h : ∀ k < n, tickDelta scaler decel v0 k ≠ (0, 0)) :
    (scrollRun scaler decel invert v0 n).1 =
      (true, (v0.1 * decel ^ n, v0.2 * decel ^ n)) := by
  induction n with
  | zero => simp [scrollRun]
  | succ n ih =>
    have hn : ∀ k < n, tickDelta scaler decel v0 k ≠ (0, 0) :=
      fun k hk => h k (Nat.lt_succ_of_lt hk)
    have hd : ¬(truncQ (v0.1 * decel ^ n * scaler) = 0 ∧
        truncQ (v0.2 * decel ^ n * scaler) = 0) := by
      intro hc
      exact h n (Nat.lt_succ_self n) (by simp [tickDelta, Prod.ext_iff, hc.1, hc.2])
    have hdec := scrollTick_decay scaler decel invert
      (v0.1 * decel ^ n, v0.2 * decel ^ n) hd
    rw [scrollRun_succ, ih hn]
    dsimp only
    rw [Prod.ext_iff]
    refine ⟨hdec.1, ?_⟩
    rw [hdec.2]
    dsimp only
    simp [pow_succ, mul_assoc]

/-- Scroll analogue of `pointerRun_stop`. -/
lemma scrollRun_stop (scaler decel : ℚ) (invert : Bool) (v0 : ℚ × ℚ) (n : ℕ)
    (h : ∀ k < n, tickDelta scaler decel v0 k ≠ (0, 0))
    (h0 : tickDelta scaler decel v0 n = (0, 0)) :
    (scrollRun scaler decel invert v0 (n + 1)).1 = (false, (0, 0)) ∧
    (scrollRun scaler decel invert v0 (n + 1)).2 =
      (scrollRun scaler decel invert v0 n).2 := by
  have h0' : truncQ (v0.1 * decel ^ n * scaler) = 0 ∧
      truncQ (v0.2 * decel ^ n * scaler) = 0 := by
    simpa [tickDelta, Prod.ext_iff] using h0
  have hs := scrollRun_emitting scaler decel invert v0 n h
  constructor
  · rw [scrollRun_succ, hs]
    dsimp only
    rw [scrollTick_stop scaler decel invert (v0.1 * decel ^ n, v0.2 * decel ^ n)
      h0'.1 h0'.2]
  · rw [scrollRun_succ, hs]
    dsimp only
    rw [scrollTick_stop scaler decel invert (v0.1 * decel ^ n, v0.2 * decel ^ n)
      h0'.1 h0'.2]
    simp

/-- C1 (amended). For a momentum class made Active with initial velocity v0,
drag d (deceleration `decel = 1 − clamp(d,0,1)`) and scale factor s: as long
as every delta is nonzero, the n-th tick (1-indexed) emits
`trunc(v0 · decel^(n−1) · s)` per axis — the delta is computed from the
velocity BEFORE that tick's decay — and leaves the internal velocity at
`v0 · decel^n`; the class transitions to Idle, with velocity reset to (0,0)
and no event emitted, at the first tick whose delta truncates to (0,0) on
both axes. The same law governs the scroll class state. In particular for
v0 = (100,0), d = 0.1, s = 1 the first emitted delta is (100,0) and the
second is (90,0). -/
theorem momentum_decay_law (pscaler pdecel sscaler sdecel : ℚ) (invert : Bool)
    (v0 w0 : ℚ × ℚ) (n m : ℕ)
    (hp : ∀ k < n, tickDelta pscaler pdecel v0 k ≠ (0, 0))
    (hs : ∀ k < m, tickDelta sscaler sdecel w0 k ≠ (0, 0)) :
    (pointerRun pscaler pdecel v0 n =
       ((true, (v0.1 * pdecel ^ n, v0.2 * pdecel ^ n)),
        (List.range n).map fun k =>
          Emission.setPosition (tickDelta pscaler pdecel v0 k).1
            (tickDelta pscaler pdecel v0 k).2) ∧
     (tickDelta pscaler pdecel v0 n = (0, 0) →
       pointerRun pscaler pdecel v0 (n + 1) =
         ((false, (0, 0)), (pointerRun pscaler pdecel v0 n).2))) ∧
    ((scrollRun sscaler sdecel invert w0 m).1 =
       (true, (w0.1 * sdecel ^ m, w0.2 * sdecel ^ m)) ∧
     (tickDelta sscaler sdecel w0 m = (0, 0) →
       (scrollRun sscaler sdecel invert w0 (m + 1)).1 = (false, (0, 0)) ∧
       (scrollRun sscaler sdecel invert w0 (m + 1)).2 =
         (scrollRun sscaler sdecel invert w0 m).2)) := by
  refine ⟨⟨pointerRun_emitting _ _ _ _ hp, fun h0 => ?_⟩,
    scrollRun_emitting _ _ _ _ _ hs, fun h0 => scrollRun_stop _ _ _ _ _ hs h0⟩
  exact pointerRun_stop _ _ _ _ hp h0

/-- C1 witness: pointer class, v0 = (100,0), drag 0.1, scale 1, two ticks:
emissions (100,0) then (90,0), velocity left at 81. -/
theorem momentum_decay_law_witness :
    pointerRun 1 (1 - clampQ (1/10) 0 1) (100, 0) 2 =
      ((true, (81, 0)), [Emission.setPosition 100 0, Emission.setPosition 90 0]) := by
  have hcl : (1 - clampQ (1/10) 0 1 : ℚ) = 9/10 := by norm_num [clampQ]
  have hp : ∀ k < 2, tickDelta 1 (1 - clampQ (1/10) 0 1) ((100 : ℚ), (0 : ℚ)) k ≠ (0, 0) := by
    intro k hk
    rw [hcl]
    interval_cases k <;> norm_num [tickDelta, truncQ, Prod.ext_iff]
  have h := (momentum_decay_law 1 (1 - clampQ (1/10) 0 1) 1 (1 - clampQ (1/10) 0 1)
    false (100, 0) (100, 0) 2 2 hp hp).1.1
  rw [h, hcl]
  norm_num [tickDelta, truncQ, List.range_succ, Prod.ext_iff, clampQ]

/-- C1 counterexample: the claim predicts the first emitted delta for
v0 = (100,0), d = 0.1, s = 1 to be `trunc(v0·(1−d)·s) = (90,0)`, but the
first tick of the code emits (100,0): the delta is computed before the decay
is applied, not after. -/
theorem momentum_decay_law_cex :
    (pointerRun 1 (1 - clampQ (1/10) 0 1) (100, 0) 1).2 = [Emission.setPosition 100 0] ∧
    Emission.setPosition 100 0 ≠
      Emission.setPosition (truncQ ((100 : ℚ) * (1 - 1/10) ^ 1 * 1))
        (truncQ ((0 : ℚ) * (1 - 1/10) ^ 1 * 1)) := by
  constructor
  · norm_num [pointerRun, pointerTick, truncQ, clampQ]
  · have h9 : truncQ ((100 : ℚ) * (1 - 1/10) ^ 1 * 1) = 90 := by norm_num [truncQ]
    have h0 : truncQ ((0 : ℚ) * (1 - 1/10) ^ 1 * 1) = 0 := by norm_num [truncQ]
    rw [h9, h0]
    intro hc
    injection hc with h1 h2
    norm_num at h1

lemma pointerTick_state_inv (scaler decel : ℚ) (v : ℚ × ℚ)
    (hf : (pointerTick scaler decel true v).1 = false) :
    (pointerTick scaler decel true v).2.1 = (0, 0) := by
  simp only [pointerTick, if_true] at hf ⊢
  split_ifs at hf ⊢ with hc
  rfl

lemma scrollTick_state_inv (scaler decel : ℚ) (invert : Bool) (v : ℚ × ℚ)
    (hf : (scrollTick scaler decel invert true v).1 = false) :
    (scrollTick scaler decel invert true v).2.1 = (0, 0) := by
  simp only [scrollTick, if_true] at hf ⊢
  split_ifs at hf ⊢ with hc
  rfl

/-- C2 (amended). A Start message (`PointerMomentum`/`ScrollMomentum`) is
handled — activating its class and storing the carried velocity — only while
BOTH classes are Idle (the blocking `recv()` arm). While either class is
Active the loop is in the `recv_timeout` arm, whose match treats a Start as
an unexpected event and ignores it. Consequently the two classes are never
simultaneously Active: the state machines are serialized, not independent. -/
theorem start_requires_both_idle :
    (∀ (c : EmuConfig) (st : EmuState) (v : ℚ × ℚ),
      st.pointer_moving = false → st.scrolling = false →
      emuStep c st (.msg (.PointerMomentum v)) =
        ({ st with pointer_moving := true, pvel := v }, []) ∧
      emuStep c st (.msg (.ScrollMomentum v)) =
        ({ st with scrolling := true, svel := v }, [])) ∧
    (∀ (c : EmuConfig) (st : EmuState) (v : ℚ × ℚ), st.scrolling = true →
      emuStep c st (.msg (.PointerMomentum v)) = (st, [])) ∧
    (∀ (c : EmuConfig) (st : EmuState) (v : ℚ × ℚ), st.pointer_moving = true →
      emuStep c st (.msg (.ScrollMomentum v)) = (st, [])) ∧
    (∀ (c : EmuConfig) (st : EmuState) (inp : EmuInput),
      (st.pointer_moving && st.scrolling) = false →
      ((emuStep c st inp).1.pointer_moving && (emuStep c st inp).1.scrolling) = false) := by
  refine ⟨?_, ?_, ?_, ?_⟩
  · intro c st v h1 h2
    exact ⟨by simp [emuStep, h1, h2], by simp [emuStep, h1, h2]⟩
  · intro c st v h
    simp [emuStep, h]
  · intro c st v h
    simp [emuStep, h]
  · intro c st inp h
    rcases st with ⟨pm, sm, pv, sv⟩
    cases inp with
    | msg m => cases m <;> cases pm <;> cases sm <;> simp_all [emuStep]
    | tick =>
      cases pm <;> cases sm <;>
        simp_all [emuStep, pointerTick_false, scrollTick_false]

/-- C2 witness: from the all-idle initial state, a `PointerMomentum (5,5)`
message activates the pointer class storing velocity (5,5). -/
theorem start_requires_both_idle_witness :
    emuStep defaultEmuConfig emuInit (.msg (.PointerMomentum (5, 5))) =
      ({ emuInit with pointer_moving := true, pvel := (5, 5) }, []) :=
  (start_requires_both_idle.1 defaultEmuConfig emuInit (5, 5) rfl rfl).1

/-- C2 counterexample: with the scroll class Active and the pointer class
Idle, a `PointerMomentum (5,5)` message does NOT activate the pointer class
(the claim says it should): the state is left unchanged. -/
theorem start_requires_both_idle_cex :
    (emuStep defaultEmuConfig
        { pointer_moving := false, scrolling := true, pvel := (0, 0), svel := (50, 0) }
        (.msg (.PointerMomentum (5, 5)))).1.pointer_moving = false ∧
    (emuStep defaultEmuConfig
        { pointer_moving := false, scrolling := true, pvel := (0, 0), svel := (50, 0) }
        (.msg (.PointerMomentum (5, 5)))).1.pvel ≠ ((5 : ℚ), (5 : ℚ)) := by
  constructor
  · rfl
  · norm_num [emuStep, Prod.ext_iff]

/-- C6 (confirmed). A Stop for an Active class immediately returns it to Idle
with velocity (0,0) and no emission, whatever the other class is doing; a
Stop for an already-Idle class (whose velocity is (0,0), the reachable case)
leaves the state unchanged and emits nothing. -/
theorem stop_message_behavior (c : EmuConfig) (st : EmuState) :
    (st.pointer_moving = true →
      emuStep c st (.msg .PointerStop) =
        ({ st with pointer_moving := false, pvel := (0, 0) }, [])) ∧
    (st.scrolling = true →
      emuStep c st (.msg .ScrollStop) =
        ({ st with scrolling := false, svel := (0, 0) }, [])) ∧
    (st.pointer_moving = false → st.pvel = (0, 0) →
      emuStep c st (.msg .PointerStop) = (st, [])) ∧
    (st.scrolling = false → st.svel = (0, 0) →
      emuStep c st (.msg .ScrollStop) = (st, [])) := by
  rcases st with ⟨pm, sm, pv, sv⟩
  refine ⟨fun h1 => ?_, fun h2 => ?_, fun h3 h4 => ?_, fun h5 h6 => ?_⟩
  · subst h1; simp [emuStep]
  · subst h2; simp [emuStep]
  · subst h3; subst h4; cases sm <;> simp [emuStep]
  · subst h5; subst h6; cases pm <;> simp [emuStep]

/-- C6 witness: stopping an active pointer class mid-decay zeroes its
velocity and idles it on the spot. -/
theorem stop_message_behavior_witness :
    emuStep defaultEmuConfig
        { pointer_moving := true, scrolling := false, pvel := (3, 4), svel := (0, 0) }
        (.msg .PointerStop) =
      ({ pointer_moving := false, scrolling := false, pvel := (0, 0), svel := (0, 0) }, []) :=
  (stop_message_behavior defaultEmuConfig
    { pointer_moving := true, scrolling := false, pvel := (3, 4), svel := (0, 0) }).1 rfl

/-- C7 (confirmed). The invariant "velocity is (0,0) whenever `active` is
false" holds for both classes at startup and is preserved by every processed
message and every tick. -/
theorem emu_inactive_velocity_zero :
    emuInv emuInit ∧
    ∀ (c : EmuConfig) (st : EmuState) (inp : EmuInput),
      emuInv st → emuInv (emuStep c st inp).1 := by
  refine ⟨⟨fun _ => rfl, fun _ => rfl⟩, ?_⟩
  intro c st inp h
  obtain ⟨hp, hs⟩ := h
  rcases st with ⟨pm, sm, pv, sv⟩
  cases inp with
  | msg m => cases m <;> cases pm <;> cases sm <;>
      simp_all [emuStep, emuInv]
  | tick =>
    cases pm <;> cases sm
    · simpa [emuStep, emuInv] using ⟨hp rfl, hs rfl⟩
    · have hpv := hp rfl
      subst hpv
      simp only [emuStep, emuInv]
      refine ⟨fun _ => by simp [pointerTick_false], fun hf => ?_⟩
      simp only [pointerTick_false] at hf ⊢
      simp only [Bool.or_true, if_true] at hf ⊢
      exact scrollTick_state_inv _ _ _ _ (by simpa using hf)
    · have hsv := hs rfl
      subst hsv
      simp only [emuStep, emuInv]
      refine ⟨fun hf => ?_, fun _ => by simp [scrollTick_false]⟩
      simp only [scrollTick_false] at hf ⊢
      simp only [Bool.true_or, if_true] at hf ⊢
      exact pointerTick_state_inv _ _ _ (by simpa using hf)
    · simp only [emuStep, emuInv, Bool.true_or, if_true]
      exact ⟨fun hf => pointerTick_state_inv _ _ _ (by simpa using hf),
        fun hf => scrollTick_state_inv _ _ _ _ (by simpa using hf)⟩

/-- C7 witness: the invariant holds after one tick from the initial state. -/
theorem emu_inactive_velocity_zero_witness :
    emuInv (emuStep defaultEmuConfig emuInit EmuInput.tick).1 :=
  emu_inactive_velocity_zero.2 defaultEmuConfig emuInit EmuInput.tick
    ⟨fun _ => rfl, fun _ => rfl⟩

/-- C9 (confirmed). An iteration waits with a blocking `recv()` (and a `tick`
does nothing: no decay work, no emission) exactly when both classes are Idle,
and waits with `recv_timeout` of one tick period (`refresh_rate.recip()`)
exactly when at least one class is Active. -/
theorem emu_wait_discipline (rr : ℚ) (c : EmuConfig) (st : EmuState) :
    (emuWaitMode rr st = WaitMode.block ↔
      st.pointer_moving = false ∧ st.scrolling = false) ∧
    (emuWaitMode rr st = WaitMode.timeout rr⁻¹ ↔
      (st.pointer_moving = true ∨ st.scrolling = true)) ∧
    (st.pointer_moving = false → st.scrolling = false →
      emuStep c st EmuInput.tick = (st, [])) := by
  rcases st with ⟨pm, sm, pv, sv⟩
  cases pm <;> cases sm <;> simp [emuWaitMode, emuStep]

/-- C9 witness: in the initial all-idle state a tick performs no work. -/
theorem emu_wait_discipline_witness :
    emuStep defaultEmuConfig emuInit EmuInput.tick = (emuInit, []) :=
  (emu_wait_discipline 60 defaultEmuConfig emuInit).2.2 rfl rfl

/-- C5 (amended). An emitting scroll tick emits exactly one scroll event,
never two: the axis whose truncated delta has the larger magnitude wins, ties
going to vertical; the vertical value is the truncated delta with its sign
inverted exactly when the invert option is set; the HORIZONTAL value is the
NEGATION of the truncated delta (independent of the invert option); the
losing axis's delta is discarded. -/
theorem scroll_tick_one_event (scaler decel : ℚ) (invert : Bool) (v : ℚ × ℚ)
    (h : ¬(truncQ (v.1 * scaler) = 0 ∧ truncQ (v.2 * scaler) = 0)) :
    (scrollTick scaler decel invert true v).2.2.length = 1 ∧
    (|truncQ (v.1 * scaler)| ≤ |truncQ (v.2 * scaler)| →
      (scrollTick scaler decel invert true v).2.2 =
        [Emission.scrollVertical
          (if invert then -truncQ (v.2 * scaler) else truncQ (v.2 * scaler))]) ∧
    (|truncQ (v.2 * scaler)| < |truncQ (v.1 * scaler)| →
      (scrollTick scaler decel invert true v).2.2 =
        [Emission.scrollHorizontal (-truncQ (v.1 * scaler))]) := by
  simp only [scrollTick, if_true]
  rw [if_neg h]
  dsimp only
  by_cases hxy : |truncQ (v.1 * scaler)| ≤ |truncQ (v.2 * scaler)|
  · rw [if_pos hxy]
    exact ⟨rfl, fun _ => rfl, fun hlt => absurd hxy (not_le.mpr hlt)⟩
  · rw [if_neg hxy]
    exact ⟨rfl, fun hle => absurd hle hxy, fun _ => rfl⟩

/-- C5 witness: a vertical-winning tick (velocity (0,5), scale 1, no invert)
emits exactly the single event `scroll_vertical 5`. -/
theorem scroll_tick_one_event_witness :
    (scrollTick 1 (9/10) false true (0, 5)).2.2 = [Emission.scrollVertical 5] := by
  have h2 := (scroll_tick_one_event 1 (9/10) false (0, 5)
    (by norm_num [truncQ])).2.1 (by norm_num [truncQ])
  norm_num [truncQ] at h2
  exact h2

/-- C5 counterexample: with velocity (5,0) and scale 1 the horizontal axis
wins and the emitted value is −5, the NEGATED truncated delta, not the
truncated delta 5 that the claim asserts. -/
theorem scroll_tick_one_event_cex :
    (scrollTick 1 (9/10) false true (5, 0)).2.2 = [Emission.scrollHorizontal (-5)] ∧
    Emission.scrollHorizontal (-5) ≠ Emission.scrollHorizontal 5 := by
  constructor
  · norm_num [scrollTick, truncQ]
  · intro hc
    injection hc with h1
    norm_num at h1

/-- C4 (confirmed). With pointer momentum enabled and `touch_count = 1`
recorded, a touch-up sends exactly one `PointerMomentum` carrying the stored
velocity if and only if the speed clears the pointer threshold (for a
nonnegative threshold, `thr² ≤ vx² + vy²`) and the release falls strictly
outside the 500 ms guard window after BOTH the last double-tap release and
the last multi-finger release; and it never sends anything else. Below the
threshold, or inside either guard window, nothing is sent. -/
theorem touch_up_pointer_guard (sen : Bool) (pthr sthr : ℚ) (vel : ℚ × ℚ)
    (ts dtts mtts : ℚ) (hp : 0 ≤ pthr) :
    ((touchUp true sen pthr sthr 1 vel ts dtts mtts).1 =
        some (MomentumMessage.PointerMomentum vel) ↔
      (pthr ^ 2 ≤ vel.1 ^ 2 + vel.2 ^ 2 ∧
        dtts + MT_TIMEOUT < ts ∧ mtts + MT_TIMEOUT < ts)) ∧
    (∀ m, (touchUp true sen pthr sthr 1 vel ts dtts mtts).1 = some m →
      m = MomentumMessage.PointerMomentum vel) := by
  have hsp : speedGeQ vel pthr ↔ pthr ^ 2 ≤ vel.1 ^ 2 + vel.2 ^ 2 := by
    unfold speedGeQ
    constructor
    · rintro (h | h)
      · have h0 : pthr = 0 := le_antisymm h hp
        rw [h0]
        positivity
      · exact h
    · exact Or.inr
  unfold touchUp
  rw [if_neg (fun hc => absurd hc.1 (by norm_num))]
  by_cases hc : speedGeQ vel pthr ∧ dtts + MT_TIMEOUT < ts ∧ mtts + MT_TIMEOUT < ts
  · rw [if_pos ⟨rfl, hc.1, hc.2.1, hc.2.2, rfl⟩]
    refine ⟨iff_of_true rfl ⟨hsp.mp hc.1, hc.2.1, hc.2.2⟩, fun m hm => ?_⟩
    exact (Option.some.inj hm).symm
  · have hcond : ¬((1 : ℕ) = 1 ∧ speedGeQ vel pthr ∧ dtts + MT_TIMEOUT < ts ∧
        mtts + MT_TIMEOUT < ts ∧ true = true) :=
      fun hfull => hc ⟨hfull.2.1, hfull.2.2.1, hfull.2.2.2.1⟩
    rw [if_neg hcond]
    refine ⟨iff_of_false (by simp) (fun hr => hc ⟨hsp.mpr hr.1, hr.2.1, hr.2.2⟩),
      fun m hm => ?_⟩
    simp at hm

/-- C4 witness: velocity (3,4) (speed 5), threshold 1, release at t = 1 s with
both cooldown timestamps at 0: exactly one `PointerMomentum (3,4)` is sent. -/
theorem touch_up_pointer_guard_witness :
    (touchUp true false 1 0 1 (3, 4) 1 0 0).1 =
      some (MomentumMessage.PointerMomentum (3, 4)) :=
  (touch_up_pointer_guard false 1 0 (3, 4) 1 0 0 (by norm_num)).1.mpr
    (by norm_num [MT_TIMEOUT])

/-- C8 (confirmed). A touch-down zeroes the stored velocity, resets the
reference position to the current position, and sends `PointerStop` exactly
when the pointer class is enabled and `ScrollStop` exactly when the scroll
class is enabled, whatever the rest of the state is. -/
theorem touch_down_resets (pen sen : Bool) (st : CaptureState) :
    (touchDown pen sen st).1.vel = (0, 0) ∧
    (touchDown pen sen st).1.prev_pos = st.pos ∧
    ((touchDown pen sen st).2.count MomentumMessage.PointerStop =
      if pen = true then 1 else 0) ∧
    ((touchDown pen sen st).2.count MomentumMessage.ScrollStop =
      if sen = true then 1 else 0) := by
  cases pen <;> cases sen <;>
    exact ⟨rfl, rfl, by simp [touchDown, List.count_cons], by simp [touchDown, List.count_cons]⟩

/-- C3 (code bug). The end-of-batch velocity update guards only on
`touch_count != 0 && pos != prev_pos`, with no check that the elapsed time is
positive: at two samples with EQUAL timestamps and a changed position it
takes the update branch and divides by `Δt = 0`, storing a non-finite
velocity (±inf, or NaN on an axis whose Δ is 0) instead of leaving the
velocity unchanged; with a strictly positive `Δt` it stores exactly
`(Δx/Δt, Δy/Δt)`. -/
theorem velocity_update_zero_dt :
    velocityUpdate 1 (1, 0) (0, 0) 0 0 (some 0, some 0) = ((none, none), (1, 0), 0) ∧
    (velocityUpdate 1 (1, 0) (0, 0) 1 0 (some 0, some 0)).1 = (some 1, some 0) := by
  constructor
  · norm_num [velocityUpdate, fdiv, Prod.ext_iff]
  · norm_num [velocityUpdate, fdiv, Prod.ext_iff]

/-- C10 (confirmed). A multitouch position event is stored only when the
selected slot is 0 or 1, writing exactly that slot's coordinate; any slot ≥ 2
is ignored, leaving the array untouched (no out-of-bounds access is possible,
the guarded index is total); and a negative `ABS_MT_SLOT` value, cast
`as usize` on a 64-bit target, lands at ≥ 2^64 − 2^31 ≥ 2 and is therefore
ignored as well. -/
theorem mt_slot_guard :
    (∀ (slot : ℕ) (mt : Fin 2 → ℤ × ℤ) (v : ℤ), 2 ≤ slot →
      mtPositionUpdateX slot mt v = mt ∧ mtPositionUpdateY slot mt v = mt) ∧
    (∀ (slot : ℕ) (hlt : slot < 2) (mt : Fin 2 → ℤ × ℤ) (v : ℤ),
      mtPositionUpdateX slot mt v =
        Function.update mt ⟨slot, hlt⟩ (v, (mt ⟨slot, hlt⟩).2) ∧
      mtPositionUpdateY slot mt v =
        Function.update mt ⟨slot, hlt⟩ ((mt ⟨slot, hlt⟩).1, v)) ∧
    (∀ v : ℤ, -(2 ^ 31) ≤ v → v < 0 → 2 ≤ i32_as_usize v) := by
  refine ⟨?_, ?_, ?_⟩
  · intro slot mt v h
    constructor
    · simp only [mtPositionUpdateX]
      rw [dif_neg (by omega)]
    · simp only [mtPositionUpdateY]
      rw [dif_neg (by omega)]
  · intro slot hlt mt v
    constructor
    · simp only [mtPositionUpdateX]
      rw [dif_pos hlt]
    · simp only [mtPositionUpdateY]
      rw [dif_pos hlt]
  · intro v h1 h2
    have h64 : (2 : ℤ) ^ 64 = 18446744073709551616 := by norm_num
    have h31 : -((2 : ℤ) ^ 31) = -2147483648 := by norm_num
    rw [h31] at h1
    rw [i32_as_usize, h64]
    omega

/-- C10 witness: slot 5 is ignored, and the i32 value −3 cast to usize lands
far above the two valid slots. -/
theorem mt_slot_guard_witness :
    mtPositionUpdateX 5 (fun _ => ((0 : ℤ), (0 : ℤ))) 7 = (fun _ => ((0 : ℤ), (0 : ℤ))) ∧
    2 ≤ i32_as_usize (-3) :=
  ⟨(mt_slot_guard.1 5 (fun _ => (0, 0)) 7 (by norm_num)).1,
    mt_slot_guard.2.2 (-3) (by norm_num) (by norm_num)⟩
